import Mathlib

/-!
# Verification of the epoll binding layer

A shallow embedding of `src/lib.rs`: the `EpollEvent` record, its memory
layout under Rust's `repr(C)` / `repr(packed)` rules, and the four wrapper
functions `epoll_create1`, `epoll_ctl`, `epoll_wait`, `close`.  The kernel is
an abstract environment: each wrapper is parameterised by the state-passing
syscall it invokes, so that theorems can quantify over every possible kernel
response.  Instrumented (tracing) syscall instances record the exact argument
values handed to the kernel and the number of calls made.
-/

namespace EpollRs

/-- The `EpollEvent` record from the source:
`pub struct EpollEvent { pub events: i32, pub data: u64 }`.
`events` carries the two's-complement value of the `i32`; `data` the `u64`
value (callers keep it below `2^64`; the layout serialisation reduces
mod `2^64` exactly as the 8-byte field does). -/
structure EpollEvent where
  events : Int
  data : Nat
deriving DecidableEq, Repr

/-- The single error kind of the layer: an OS error wrapping the platform
`errno` captured by `Error::last_os_error()`. -/
structure OSError where
  errno : Nat
deriving DecidableEq, Repr

/-! ## Memory layout

Rust's `repr(C)` layout algorithm for a struct, and the `repr(packed)`
variant, computed generically from the fields' sizes and alignments. -/

/-- Size and alignment of one struct field, in bytes. -/
structure FieldSpec where
  size : Nat
  align : Nat
deriving DecidableEq, Repr

/-- Round `off` up to the next multiple of `a` (alignment padding). -/
def alignUp (off a : Nat) : Nat :=
  if a = 0 then off else ((off + a - 1) / a) * a

/-- Field offsets of a struct laid out starting at `off`: `repr(C)` aligns
each field to its own alignment, `repr(packed)` inserts no padding. -/
def fieldOffsets (packed : Bool) (off : Nat) : List FieldSpec → List Nat
  | [] => []
  | f :: fs =>
      let o := if packed then off else alignUp off f.align
      o :: fieldOffsets packed (o + f.size) fs

/-- End offset after laying out the fields (before trailing padding). -/
def fieldsEnd (packed : Bool) (off : Nat) : List FieldSpec → Nat
  | [] => off
  | f :: fs =>
      let o := if packed then off else alignUp off f.align
      fieldsEnd packed (o + f.size) fs

/-- Total struct size: `repr(packed)` is exactly the fields end;
`repr(C)` rounds up to the largest field alignment (trailing padding). -/
def structSize (packed : Bool) (fields : List FieldSpec) : Nat :=
  let e := fieldsEnd packed 0 fields
  if packed then e else alignUp e (fields.foldr (fun f m => max f.align m) 1)

/-- Architectures distinguished by the source's `cfg_attr`. -/
inductive Arch where
  | x86_64
  | otherArch
deriving DecidableEq, Repr

/-- `#[cfg_attr(target_arch = "x86_64", repr(packed))]`: the record is
packed exactly on x86_64. -/
def epollEventPacked : Arch → Bool
  | .x86_64 => true
  | .otherArch => false

/-- The source record's fields in declaration order: `events: i32`
(4 bytes, align 4), `data: u64` (8 bytes, align 8). -/
def epollEventFields : List FieldSpec := [⟨4, 4⟩, ⟨8, 8⟩]

/-- Byte offsets of `events` and `data` on the given architecture. -/
def epollEventOffsets (a : Arch) : List Nat :=
  fieldOffsets (epollEventPacked a) 0 epollEventFields

/-- Total size of `EpollEvent` on the given architecture. -/
def epollEventSize (a : Arch) : Nat :=
  structSize (epollEventPacked a) epollEventFields

/-! ## Byte-for-byte serialisation -/

/-- The `w` little-endian bytes of `v`. -/
def bytesLE (w v : Nat) : List Nat :=
  (List.range w).map fun i => v / 256 ^ i % 256

/-- The 32-bit two's-complement bit pattern of an `i32` value. -/
def i32Bits (x : Int) : Nat := (x % (2 ^ 32)).toNat

/-- Overwrite `bs` into `buf` starting at byte offset `off`. -/
def writeBytes (buf : List Nat) (off : Nat) (bs : List Nat) : List Nat :=
  buf.take off ++ bs ++ buf.drop (off + bs.length)

/-- Serialise fields placed at given offsets into a zeroed buffer of
`sz` bytes. -/
def layoutSerialize (sz : Nat) (placed : List (Nat × List Nat)) : List Nat :=
  placed.foldl (fun b p => writeBytes b p.1 p.2) (List.replicate sz 0)

/-- The bytes of an `EpollEvent` on architecture `a`, per the source
record's computed layout. -/
def serializeEpollEvent (a : Arch) (e : EpollEvent) : List Nat :=
  layoutSerialize (epollEventSize a)
    ((epollEventOffsets a).zip
      [bytesLE 4 (i32Bits e.events), bytesLE 8 (e.data % 2 ^ 64)])

/-- Modelled from the spec: the kernel's native `epoll_event` structure
(not part of this repository) is, on x86_64, a 4-byte event mask at offset 0
followed immediately by an 8-byte user-data field at offset 4, with no
padding (12 bytes total). -/
def kernelEpollEventOffsets : List Nat := [0, 4]

/-- Modelled from the spec: total size of the kernel's native
`epoll_event` on x86_64. -/
def kernelEpollEventSize : Nat := 12

/-- Modelled from the spec: the kernel's byte image of an event record on
x86_64 — event-mask bytes at offset 0, user-data bytes at offset 4. -/
def kernelSerialize (mask : Int) (udata : Nat) : List Nat :=
  layoutSerialize kernelEpollEventSize
    (kernelEpollEventOffsets.zip
      [bytesLE 4 (i32Bits mask), bytesLE 8 (udata % 2 ^ 64)])

/-! ## The kernel boundary

Each wrapper makes exactly one kernel call.  A syscall is modelled as a
state-passing function over an abstract kernel/environment state `σ`; its
return value bundles the `int` result together with the value of `errno`
right after the call (which is what `Error::last_os_error()` reads). -/

/-- Result of a plain syscall: the returned `int` and `errno` after the
call. -/
structure SysRet where
  ret : Int
  errnoAfter : Nat
deriving DecidableEq, Repr

/-- Result of `epoll_ctl`: besides the returned `int` and `errno`, the value
held by the pointed-to event record after the call (the kernel receives a
mutable pointer, so the pointee may have been overwritten). -/
structure CtlRet where
  ret : Int
  errnoAfter : Nat
  pointeeAfter : EpollEvent
deriving DecidableEq, Repr

/-- Result of `epoll_wait`: the returned `int`, `errno` after the call, and
the records the kernel wrote into the start of the output buffer. -/
structure WaitRet where
  ret : Int
  errnoAfter : Nat
  written : List EpollEvent
deriving DecidableEq, Repr

/-! ## The four wrappers, embedded from `src/lib.rs` -/

/-- `pub fn epoll_create1(flags: i32) -> io::Result<RawFd>`: call
`libc::epoll_create1(flags)`; if the result is `< 0` return the last OS
error, otherwise return the result as the new file descriptor. -/
def epoll_create1 (sys : Int → σ → SysRet × σ) (flags : Int) (s : σ) :
    Except OSError Int × σ :=
  let (r, s') := sys flags s
  (if r.ret < 0 then .error ⟨r.errnoAfter⟩ else .ok r.ret, s')

/-- `pub fn epoll_ctl(epfd, op, fd, mut event: EpollEvent) -> io::Result<()>`:
`event` is received by value (a copy of the caller's record); the wrapper
passes the address of this local copy — always a non-null pointer, modelled
as `some event` — to `libc::epoll_ctl`; if the result is `< 0` return the
last OS error, otherwise `Ok(())`.  The (possibly kernel-overwritten) local
copy is dropped: it does not appear in the result. -/
def epoll_ctl (sys : Int → Int → Int → Option EpollEvent → σ → CtlRet × σ)
    (epfd op fd : Int) (event : EpollEvent) (s : σ) :
    Except OSError Unit × σ :=
  let (r, s') := sys epfd op fd (some event) s
  (if r.ret < 0 then .error ⟨r.errnoAfter⟩ else .ok (), s')

/-- `pub fn epoll_wait(epfd, events: &mut [EpollEvent], max_events, timeout)
-> io::Result<usize>`: hand the kernel the buffer pointer, `max_events` and
`timeout` verbatim; the kernel overwrites a prefix of the buffer; if the
result is `< 0` return the last OS error, otherwise return `result as usize`.
The pair returned here is (wrapper result, buffer contents after the call);
the buffer after the call is the kernel-written prefix followed by the
untouched remainder. -/
def epoll_wait (sys : Int → Int → Int → σ → WaitRet × σ) (epfd : Int)
    (events : List EpollEvent) (max_events timeout : Int) (s : σ) :
    (Except OSError Nat × List EpollEvent) × σ :=
  let (r, s') := sys epfd max_events timeout s
  ((if r.ret < 0 then .error ⟨r.errnoAfter⟩ else .ok r.ret.toNat,
    r.written ++ events.drop r.written.length), s')

/-- `pub fn close(fd: RawFd) -> io::Result<()>`: call `libc::close(fd)`;
if the result is `< 0` return the last OS error, otherwise `Ok(())`. -/
def close (sys : Int → σ → SysRet × σ) (fd : Int) (s : σ) :
    Except OSError Unit × σ :=
  let (r, s') := sys fd s
  (if r.ret < 0 then .error ⟨r.errnoAfter⟩ else .ok (), s')

/-! ## Instrumented syscalls

Tracing instances record, in order, the exact argument values each kernel
call receives; the prepared response is returned unchanged.  The trace
length counts the kernel calls made. -/

/-- One recorded `epoll_ctl` kernel call: the four argument values the
kernel received (`eventPtr = none` would be a null record pointer). -/
structure CtlCall where
  epfd : Int
  op : Int
  fd : Int
  eventPtr : Option EpollEvent
deriving DecidableEq, Repr

/-- One recorded `epoll_wait` kernel call: descriptor, `max_events` and
timeout as received by the kernel. -/
structure WaitCall where
  epfd : Int
  maxEvents : Int
  timeout : Int
deriving DecidableEq, Repr

/-- Tracing `epoll_create1` syscall: answers `r`, records the flags
received. -/
def traceCreate (r : SysRet) : Int → List Int → SysRet × List Int :=
  fun flags tr => (r, tr ++ [flags])

/-- Tracing `epoll_ctl` syscall: answers `r`, records the call received. -/
def traceCtl (r : CtlRet) :
    Int → Int → Int → Option EpollEvent → List CtlCall → CtlRet × List CtlCall :=
  fun epfd op fd p tr => (r, tr ++ [⟨epfd, op, fd, p⟩])

/-- Tracing `epoll_wait` syscall: answers `r`, records the call received. -/
def traceWait (r : WaitRet) :
    Int → Int → Int → List WaitCall → WaitRet × List WaitCall :=
  fun epfd me t tr => (r, tr ++ [⟨epfd, me, t⟩])

/-- Tracing `close` syscall: answers `r`, records the descriptor
received. -/
def traceClose (r : SysRet) : Int → List Int → SysRet × List Int :=
  fun fd tr => (r, tr ++ [fd])

/-- `EINTR` on Linux. -/
def EINTR : Nat := 4

/-- `EBADF` on Linux. -/
def EBADF : Nat := 9

/-- `EMFILE` on Linux. -/
def EMFILE : Nat := 24

/-- `libc::EPOLL_CTL_ADD`. -/
def EPOLL_CTL_ADD : Int := 1

/-- `libc::EPOLL_CTL_DEL`. -/
def EPOLL_CTL_DEL : Int := 2

/-- `libc::EPOLL_CTL_MOD`. -/
def EPOLL_CTL_MOD : Int := 3

/-- The Rust call site `epoll_ctl(epfd, op, fd, record)`: `EpollEvent` is
`Copy` and the parameter is taken by value, so the callee's `mut event` is a
copy of the caller's record and the caller's own binding still holds the
original record after the call.  Returns (wrapper result, caller's record
after the call). -/
def epoll_ctl_callSite
    (sys : Int → Int → Int → Option EpollEvent → σ → CtlRet × σ)
    (epfd op fd : Int) (callerRecord : EpollEvent) (s : σ) :
    (Except OSError Unit × EpollEvent) × σ :=
  let (res, s') := epoll_ctl sys epfd op fd callerRecord s
  ((res, callerRecord), s')

/-- Modelled from the spec: the kernel environment for descriptor lifetime —
the set of currently open descriptors, a resource limit on how many may be
open, and the current `errno` value. -/
structure OsState where
  openFds : List Int
  maxFds : Nat
  errnoVal : Nat
deriving DecidableEq, Repr

/-- The smallest-free-style fresh descriptor of the model: one more than the
largest open descriptor (so it is nonnegative and not currently open). -/
def freshFd (s : OsState) : Int := (s.openFds.foldr max (-1)) + 1

/-- Modelled from the spec: kernel `epoll_create1` — allocates a fresh
nonnegative descriptor for a new poll instance, unless the resource limit is
exhausted, in which case it returns −1 with `errno = EMFILE`. -/
def osCreate : Int → OsState → SysRet × OsState := fun _flags s =>
  if s.openFds.length < s.maxFds then
    (⟨freshFd s, s.errnoVal⟩, ⟨freshFd s :: s.openFds, s.maxFds, s.errnoVal⟩)
  else
    (⟨-1, EMFILE⟩, ⟨s.openFds, s.maxFds, EMFILE⟩)

/-- Modelled from the spec: kernel `close` — releases an open descriptor and
returns 0; on a descriptor that is not open it returns −1 with
`errno = EBADF`. -/
def osClose : Int → OsState → SysRet × OsState := fun fd s =>
  if fd ∈ s.openFds then
    (⟨0, s.errnoVal⟩, ⟨s.openFds.erase fd, s.maxFds, s.errnoVal⟩)
  else
    (⟨-1, EBADF⟩, ⟨s.openFds, s.maxFds, EBADF⟩)

end EpollRs

namespace EpollRs

/-- C1: on x86_64 the packed `EpollEvent` record has the kernel's exact
binary layout: the 4-byte `events` field at offset 0, the 8-byte `data`
field at offset 4, total size 12, and every record serialises
byte-for-byte identically to the kernel's native structure. -/
theorem epollEvent_layout_matches_kernel_x86_64 :
    epollEventOffsets .x86_64 = kernelEpollEventOffsets ∧
    epollEventSize .x86_64 = kernelEpollEventSize ∧
    epollEventOffsets .x86_64 = [0, 4] ∧
    epollEventSize .x86_64 = 4 + 8 ∧
    ∀ e : EpollEvent,
      serializeEpollEvent .x86_64 e = kernelSerialize e.events e.data := by
  refine ⟨by decide, by decide, by decide, by decide, fun e => ?_⟩
  rfl

/-- C2: every wrapper makes exactly one kernel call (the trace grows by one
entry even on failure — no retry), fails exactly when the kernel result is
negative, and on failure returns the single OS error wrapping the errno
captured right after that call, unmodified; in particular `epoll_wait`
interrupted by a signal (result −1, errno `EINTR`) surfaces the plain OS
error without auto-retry. -/
theorem errors_surface_unmodified_no_retry :
    (∀ (r : SysRet) (flags : Int) (tr : List Int),
        epoll_create1 (traceCreate r) flags tr =
          (if r.ret < 0 then .error ⟨r.errnoAfter⟩ else .ok r.ret,
           tr ++ [flags])) ∧
    (∀ (r : CtlRet) (epfd op fd : Int) (ev : EpollEvent) (tr : List CtlCall),
        epoll_ctl (traceCtl r) epfd op fd ev tr =
          (if r.ret < 0 then .error ⟨r.errnoAfter⟩ else .ok (),
           tr ++ [⟨epfd, op, fd, some ev⟩])) ∧
    (∀ (r : WaitRet) (epfd max_events timeout : Int)
        (events : List EpollEvent) (tr : List WaitCall),
        epoll_wait (traceWait r) epfd events max_events timeout tr =
          ((if r.ret < 0 then .error ⟨r.errnoAfter⟩ else .ok r.ret.toNat,
            r.written ++ events.drop r.written.length),
           tr ++ [⟨epfd, max_events, timeout⟩])) ∧
    (∀ (r : SysRet) (fd : Int) (tr : List Int),
        close (traceClose r) fd tr =
          (if r.ret < 0 then .error ⟨r.errnoAfter⟩ else .ok (),
           tr ++ [fd])) ∧
    (∀ (epfd max_events timeout : Int) (events : List EpollEvent)
        (tr : List WaitCall),
        epoll_wait (traceWait ⟨-1, EINTR, []⟩) epfd events max_events timeout tr
          = ((.error ⟨EINTR⟩, events), tr ++ [⟨epfd, max_events, timeout⟩])) :=
  ⟨fun _ _ _ => rfl, fun _ _ _ _ _ _ => rfl, fun _ _ _ _ _ _ => rfl,
   fun _ _ _ => rfl, fun _ _ _ _ _ => rfl⟩

/-- C3: for every flags value, when the kernel accepts (returns a
nonnegative descriptor `n`) `epoll_create1` returns `Ok n` with `n ≥ 0`;
when the kernel rejects (any negative result) it fails with the OS error
wrapping the platform errno. -/
theorem create_ok_nonneg_or_os_error :
    (∀ (n e : Nat) (flags : Int) (tr : List Int),
        (epoll_create1 (traceCreate ⟨(n : Int), e⟩) flags tr).1
          = .ok (n : Int) ∧ (0 : Int) ≤ (n : Int)) ∧
    (∀ (m e : Nat) (flags : Int) (tr : List Int),
        (epoll_create1 (traceCreate ⟨-((m : Int) + 1), e⟩) flags tr).1
          = .error ⟨e⟩) := by
  constructor
  · intro n e flags tr
    refine ⟨?_, Int.natCast_nonneg n⟩
    simp only [epoll_create1, traceCreate]
    rw [if_neg (by omega : ¬((n : Int) < 0))]
  · intro m e flags tr
    simp only [epoll_create1, traceCreate]
    rw [if_pos (by omega : -((m : Int) + 1) < 0)]

/-- C6: no local validation — every flags value, operation code and event
mask, however invalid, is handed verbatim to the kernel (the traced call
holds exactly the caller's values), a kernel acceptance is returned as
success and a kernel rejection as the kernel's OS error; nothing is checked
or rejected locally. -/
theorem no_local_validation_pass_through :
    (∀ (r : SysRet) (flags : Int) (tr : List Int),
        (epoll_create1 (traceCreate r) flags tr).2 = tr ++ [flags]) ∧
    (∀ (r : CtlRet) (epfd op fd : Int) (mask : Int) (udata : Nat)
        (tr : List CtlCall),
        (epoll_ctl (traceCtl r) epfd op fd ⟨mask, udata⟩ tr).2
          = tr ++ [⟨epfd, op, fd, some ⟨mask, udata⟩⟩]) ∧
    (∀ (n e : Nat) (flags : Int) (tr : List Int),
        (epoll_create1 (traceCreate ⟨(n : Int), e⟩) flags tr).1
          = .ok (n : Int)) ∧
    (∀ (n e : Nat) (w : EpollEvent) (epfd op fd : Int) (ev : EpollEvent)
        (tr : List CtlCall),
        (epoll_ctl (traceCtl ⟨(n : Int), e, w⟩) epfd op fd ev tr).1
          = .ok ()) ∧
    (∀ (m e : Nat) (flags : Int) (tr : List Int),
        (epoll_create1 (traceCreate ⟨-((m : Int) + 1), e⟩) flags tr).1
          = .error ⟨e⟩) ∧
    (∀ (m e : Nat) (w : EpollEvent) (epfd op fd : Int) (ev : EpollEvent)
        (tr : List CtlCall),
        (epoll_ctl (traceCtl ⟨-((m : Int) + 1), e, w⟩) epfd op fd ev tr).1
          = .error ⟨e⟩) := by
  refine ⟨fun _ _ _ => rfl, fun _ _ _ _ _ _ _ => rfl, ?_, ?_, ?_, ?_⟩
  · intro n e flags tr
    simp only [epoll_create1, traceCreate]
    rw [if_neg (by omega : ¬((n : Int) < 0))]
  · intro n e w epfd op fd ev tr
    simp only [epoll_ctl, traceCtl]
    rw [if_neg (by omega : ¬((n : Int) < 0))]
  · intro m e flags tr
    simp only [epoll_create1, traceCreate]
    rw [if_pos (by omega : -((m : Int) + 1) < 0)]
  · intro m e w epfd op fd ev tr
    simp only [epoll_ctl, traceCtl]
    rw [if_pos (by omega : -((m : Int) + 1) < 0)]

/-- C8: `epoll_ctl` passes a non-null pointer to the caller-supplied record
for every operation — in particular for `EPOLL_CTL_DEL`, where the record's
contents are ignored by the kernel, the traced kernel call still receives
`some ev`, never `none` (a null pointer). -/
theorem ctl_record_passed_even_for_del :
    (∀ (r : CtlRet) (epfd fd : Int) (ev : EpollEvent) (tr : List CtlCall),
        (epoll_ctl (traceCtl r) epfd EPOLL_CTL_DEL fd ev tr).2
          = tr ++ [⟨epfd, EPOLL_CTL_DEL, fd, some ev⟩]) ∧
    (∀ (r : CtlRet) (epfd op fd : Int) (ev : EpollEvent) (tr : List CtlCall),
        (epoll_ctl (traceCtl r) epfd op fd ev tr).2
          = tr ++ [⟨epfd, op, fd, some ev⟩]) ∧
    (∀ ev : EpollEvent, some ev ≠ (none : Option EpollEvent)) :=
  ⟨fun _ _ _ _ _ => rfl, fun _ _ _ _ _ _ => rfl,
   fun _ h => Option.noConfusion h⟩

/-- C9: `epoll_ctl` never mutates the caller's record — the wrapper's
result is invariant under whatever the kernel writes through the pointer
(the pointee-after value, which only ever reaches the callee's by-value
local copy), and at the call site the caller's record after the call is
exactly the record passed in. -/
theorem ctl_never_mutates_caller_record :
    (∀ (ret : Int) (e : Nat) (w w' : EpollEvent) (epfd op fd : Int)
        (ev : EpollEvent) (tr : List CtlCall),
        (epoll_ctl (traceCtl ⟨ret, e, w⟩) epfd op fd ev tr).1
          = (epoll_ctl (traceCtl ⟨ret, e, w'⟩) epfd op fd ev tr).1) ∧
    (∀ (r : CtlRet) (epfd op fd : Int) (rec : EpollEvent) (tr : List CtlCall),
        ((epoll_ctl_callSite (traceCtl r) epfd op fd rec tr).1.2 = rec ∧
         (epoll_ctl_callSite (traceCtl r) epfd op fd rec tr).1.1
           = (epoll_ctl (traceCtl r) epfd op fd rec tr).1)) :=
  ⟨fun _ _ _ _ _ _ _ _ _ => rfl, fun _ _ _ _ _ _ => ⟨rfl, rfl⟩⟩

/-- C10: the error test is strictly `result < 0`, so a kernel result of
exactly 0 is success: `epoll_create1` returning descriptor 0 yields `Ok 0`
(fd 0 is a valid handle), `epoll_wait` returning 0 yields `Ok 0`, the other
wrappers likewise succeed on 0, and every nonnegative signed result `n` is
converted to the unsigned count `n` without change. -/
theorem zero_kernel_result_is_success :
    (∀ (e : Nat) (flags : Int) (tr : List Int),
        (epoll_create1 (traceCreate ⟨0, e⟩) flags tr).1 = .ok 0) ∧
    (∀ (e : Nat) (ws : List EpollEvent) (epfd max_events timeout : Int)
        (events : List EpollEvent) (tr : List WaitCall),
        (epoll_wait (traceWait ⟨0, e, ws⟩) epfd events max_events timeout
            tr).1.1 = .ok 0) ∧
    (∀ (n e : Nat) (ws : List EpollEvent) (epfd max_events timeout : Int)
        (events : List EpollEvent) (tr : List WaitCall),
        (epoll_wait (traceWait ⟨(n : Int), e, ws⟩) epfd events max_events
            timeout tr).1.1 = .ok n) ∧
    (∀ (e : Nat) (w : EpollEvent) (epfd op fd : Int) (ev : EpollEvent)
        (tr : List CtlCall),
        (epoll_ctl (traceCtl ⟨0, e, w⟩) epfd op fd ev tr).1 = .ok ()) ∧
    (∀ (e : Nat) (fd : Int) (tr : List Int),
        (close (traceClose ⟨0, e⟩) fd tr).1 = .ok ()) := by
  refine ⟨fun _ _ _ => rfl, fun _ _ _ _ _ _ _ => rfl, ?_,
          fun _ _ _ _ _ _ _ => rfl, fun _ _ _ => rfl⟩
  intro n e ws epfd max_events timeout events tr
  simp only [epoll_wait, traceWait]
  rw [if_neg (by omega : ¬((n : Int) < 0))]
  simp

/-- C7: `epoll_wait` never re-validates `max_events` against the buffer
length — even when `max_events` exceeds the buffer's true capacity, the
kernel call receives `max_events` verbatim (no clamping) and the outcome is
decided solely by the kernel's result, with no local bounds error. -/
theorem wait_no_bounds_check (r : WaitRet) (epfd max_events timeout : Int)
    (events : List EpollEvent) (tr : List WaitCall)
    (_hover : (events.length : Int) < max_events) :
    (epoll_wait (traceWait r) epfd events max_events timeout tr).2
      = tr ++ [⟨epfd, max_events, timeout⟩] ∧
    (epoll_wait (traceWait r) epfd events max_events timeout tr).1.1
      = (if r.ret < 0 then .error ⟨r.errnoAfter⟩ else .ok r.ret.toNat) :=
  ⟨rfl, rfl⟩

/-- Witness for C7: a buffer of capacity 2 with `max_events = 5`. -/
theorem wait_no_bounds_check_witness :
    (epoll_wait (traceWait ⟨0, 0, []⟩) 3 [⟨0, 0⟩, ⟨0, 0⟩] 5 0 []).2
      = [] ++ [⟨3, 5, 0⟩] ∧
    (epoll_wait (traceWait ⟨0, 0, []⟩) 3 [⟨0, 0⟩, ⟨0, 0⟩] 5 0 []).1.1
      = (if (0 : Int) < 0 then .error ⟨0⟩ else .ok (0 : Int).toNat) :=
  wait_no_bounds_check ⟨0, 0, []⟩ 3 5 0 [⟨0, 0⟩, ⟨0, 0⟩] [] (by decide)

/-- C4: on every successful `epoll_wait` (kernel result nonnegative,
kernel honouring its contract that the result counts the records it wrote,
never more than `max_events` nor past the buffer), the returned count
satisfies `0 ≤ count ≤ max_events`, the buffer keeps its length, its first
`count` entries are exactly the kernel-reported records and everything past
them is untouched; a result of 0 is `Ok 0` with the buffer unchanged. -/
theorem wait_success_postcondition (r : WaitRet) (epfd : Int)
    (events : List EpollEvent) (max_events timeout : Int) (tr : List WaitCall)
    (hnn : 0 ≤ r.ret)
    (hcount : r.written.length = r.ret.toNat)
    (hmax : r.ret ≤ max_events)
    (hbuf : r.written.length ≤ events.length) :
    (epoll_wait (traceWait r) epfd events max_events timeout tr).1.1
      = .ok r.ret.toNat ∧
    (0 : Int) ≤ r.ret ∧ r.ret ≤ max_events ∧
    ((epoll_wait (traceWait r) epfd events max_events timeout tr).1.2).length
      = events.length ∧
    ((epoll_wait (traceWait r) epfd events max_events timeout
        tr).1.2).take r.ret.toNat = r.written ∧
    ((epoll_wait (traceWait r) epfd events max_events timeout
        tr).1.2).drop r.ret.toNat = events.drop r.ret.toNat ∧
    (r.ret = 0 →
      (epoll_wait (traceWait r) epfd events max_events timeout tr).1.1
          = .ok 0 ∧
      (epoll_wait (traceWait r) epfd events max_events timeout tr).1.2
          = events) := by
  have hbufeq :
      (epoll_wait (traceWait r) epfd events max_events timeout tr).1.2
        = r.written ++ events.drop r.written.length := rfl
  have hres :
      (epoll_wait (traceWait r) epfd events max_events timeout tr).1.1
        = .ok r.ret.toNat := by
    simp only [epoll_wait, traceWait]
    rw [if_neg (by omega : ¬(r.ret < 0))]
  refine ⟨hres, hnn, hmax, ?_, ?_, ?_, ?_⟩
  · rw [hbufeq]
    simp only [List.length_append, List.length_drop]
    omega
  · rw [hbufeq, ← hcount, List.take_left]
  · rw [hbufeq, ← hcount, List.drop_left]
  · intro h0
    have hw : r.written = [] := by
      have : r.written.length = 0 := by rw [hcount, h0]; rfl
      exact List.eq_nil_of_length_eq_zero this
    refine ⟨by rw [hres, h0]; rfl, ?_⟩
    rw [hbufeq, hw]
    simp

/-- Witness for C4: one ready record reported into a capacity-2 buffer. -/
theorem wait_success_postcondition_witness :
    (epoll_wait (traceWait ⟨1, 0, [⟨1, 42⟩]⟩) 3 [⟨0, 0⟩, ⟨0, 0⟩] 2 0
        []).1.1 = .ok (1 : Int).toNat ∧
    (0 : Int) ≤ 1 ∧ (1 : Int) ≤ 2 ∧
    ((epoll_wait (traceWait ⟨1, 0, [⟨1, 42⟩]⟩) 3 [⟨0, 0⟩, ⟨0, 0⟩] 2 0
        []).1.2).length = 2 ∧
    ((epoll_wait (traceWait ⟨1, 0, [⟨1, 42⟩]⟩) 3 [⟨0, 0⟩, ⟨0, 0⟩] 2 0
        []).1.2).take (1 : Int).toNat = [⟨1, 42⟩] ∧
    ((epoll_wait (traceWait ⟨1, 0, [⟨1, 42⟩]⟩) 3 [⟨0, 0⟩, ⟨0, 0⟩] 2 0
        []).1.2).drop (1 : Int).toNat = [(⟨0, 0⟩ : EpollEvent), ⟨0, 0⟩].drop
          (1 : Int).toNat ∧
    ((1 : Int) = 0 →
      (epoll_wait (traceWait ⟨1, 0, [⟨1, 42⟩]⟩) 3 [⟨0, 0⟩, ⟨0, 0⟩] 2 0
          []).1.1 = .ok 0 ∧
      (epoll_wait (traceWait ⟨1, 0, [⟨1, 42⟩]⟩) 3 [⟨0, 0⟩, ⟨0, 0⟩] 2 0
          []).1.2 = [⟨0, 0⟩, ⟨0, 0⟩]) :=
  wait_success_postcondition ⟨1, 0, [⟨1, 42⟩]⟩ 3 [⟨0, 0⟩, ⟨0, 0⟩] 2 0 []
    (by decide) (by decide) (by decide) (by decide)

theorem le_foldr_max {l : List Int} {x : Int} (hx : x ∈ l) :
    x ≤ l.foldr max (-1) := by
  induction l with
  | nil => cases hx
  | cons a t ih =>
      rcases List.mem_cons.mp hx with h | h
      · subst h; exact le_max_left _ _
      · exact le_trans (ih h) (le_max_right _ _)

theorem freshFd_nonneg (s : OsState) : 0 ≤ freshFd s := by
  unfold freshFd
  have h : (-1 : Int) ≤ s.openFds.foldr max (-1) := by
    induction s.openFds with
    | nil => exact le_refl _
    | cons a t ih => exact le_trans ih (le_max_right _ _)
  omega

theorem freshFd_not_mem (s : OsState) : freshFd s ∉ s.openFds := by
  intro h
  have hle := le_foldr_max h
  unfold freshFd at hle
  omega

/-- C5: `close` on a handle from a successful `create` succeeds exactly
once — the first `close h` returns `Ok(())` and releases the descriptor,
and a second `close h` fails with the OS error `EBADF` (the descriptor is
no longer open). -/
theorem close_succeeds_exactly_once (s : OsState) (flags : Int)
    (hcap : s.openFds.length < s.maxFds) :
    (epoll_create1 osCreate flags s).1 = .ok (freshFd s) ∧
    0 ≤ freshFd s ∧
    (close osClose (freshFd s) (epoll_create1 osCreate flags s).2).1
      = .ok () ∧
    (close osClose (freshFd s)
        (close osClose (freshFd s)
          (epoll_create1 osCreate flags s).2).2).1
      = .error ⟨EBADF⟩ := by
  have hfresh := freshFd_nonneg s
  have hnot := freshFd_not_mem s
  have hno : ¬(freshFd s < 0) := by omega
  refine ⟨?_, hfresh, ?_, ?_⟩
  · simp [epoll_create1, osCreate, hcap, hno]
  · simp [epoll_create1, close, osClose, osCreate, hcap, hno]
  · simp [epoll_create1, close, osClose, osCreate, hcap, hno,
      List.erase_cons_head, hnot]

/-- Witness for C5: a fresh OS state with room for one descriptor; the
handle is created, closed once successfully, and the second close fails
with `EBADF`. -/
theorem close_succeeds_exactly_once_witness :
    (epoll_create1 osCreate 0 ⟨[], 1, 0⟩).1 = .ok (freshFd ⟨[], 1, 0⟩) ∧
    0 ≤ freshFd ⟨[], 1, 0⟩ ∧
    (close osClose (freshFd ⟨[], 1, 0⟩)
        (epoll_create1 osCreate 0 ⟨[], 1, 0⟩).2).1 = .ok () ∧
    (close osClose (freshFd ⟨[], 1, 0⟩)
        (close osClose (freshFd ⟨[], 1, 0⟩)
          (epoll_create1 osCreate 0 ⟨[], 1, 0⟩).2).2).1
      = .error ⟨EBADF⟩ :=
  close_succeeds_exactly_once ⟨[], 1, 0⟩ 0 (by decide)

end EpollRs
